import Mathlib

/-!
# Verification of the WireGuard VPN benchmark orchestrator

Shallow embedding of `src/main.py` (a sequential VPN-configuration benchmark:
activate tunnel, probe latency and throughput, deactivate, rank results) and
proofs about its claimed properties.

Modelling conventions:
* Python floats are modelled as exact rationals (`ℚ`).
* External commands (`wg-quick`, `ping`, speedtest) are opaque collaborators;
  their outcomes are parameters (`ConfigBehavior`, `CmdResult`).
* Side effects (subprocess invocations and prints) are recorded as an explicit
  `Event` trace; raised Python exceptions are explicit (`Except`, `Bool` flags).
* `subprocess.run(check=True)` raises `CalledProcessError` on a non-zero exit
  status; with `check=False` it never does.  A Python `with` statement calls
  `__exit__` when the body raises, but not when `__enter__` itself raises.
* `KeyboardInterrupt` is modelled as arriving during the probe block of one
  designated configuration (`Option Nat` index).
-/

/-- Python `str.startswith`. -/
def pyStartsWith (s p : String) : Bool := p.data.isPrefixOf s.data

/-- Python `str.endswith`. -/
def pyEndsWith (s p : String) : Bool := p.data.isSuffixOf s.data

/-- `os.path.join(folder, f)` for a plain (non-absolute) entry `f`. -/
def joinPath (folder f : String) : String :=
  if folder = "" then f
  else if pyEndsWith folder "/" then folder ++ f
  else folder ++ "/" ++ f

/-- Character class `[\d.]` of the regex `time=([\d.]+) ms`. -/
def isDigitOrDot (c : Char) : Bool := c.isDigit || c = '.'

/-- One attempted regex match of `time=([\d.]+) ms` at the head of `l`.
Returns the captured group and the remainder after the match.  Because the
class `[\d.]` excludes the space that must follow, the greedy `[\d.]+` can
only succeed on the maximal digit-or-dot run, so no backtracking arises. -/
def timeMatch (l : List Char) : Option (List Char × List Char) :=
  match l with
  | 't' :: 'i' :: 'm' :: 'e' :: '=' :: rest =>
    let run := rest.takeWhile isDigitOrDot
    match rest.dropWhile isDigitOrDot with
    | ' ' :: 'm' :: 's' :: rest3 => if run.isEmpty then none else some (run, rest3)
    | _ => none
  | _ => none

/-- `re.findall(r'time=([\d.]+) ms', ·)`: scan left to right, taking
non-overlapping matches and advancing one character on failure. -/
def scanTimes (l : List Char) : List (List Char) :=
  match l with
  | [] => []
  | c :: cs =>
    match h : timeMatch (c :: cs) with
    | some (cap, rest) => cap :: scanTimes rest
    | none => scanTimes cs
termination_by l.length
decreasing_by
  · rw [timeMatch.eq_def] at h
    split at h
    · next r heq1 =>
      dsimp only at h
      split at h
      · next rest3 heq =>
        split at h
        · exact absurd h (by simp)
        · simp only [Option.some.injEq, Prod.mk.injEq] at h
          obtain ⟨h4, h5⟩ := h
          subst h5
          have h2 := congrArg List.length heq
          have h6 := congrArg List.length heq1
          have h3 : (r.dropWhile isDigitOrDot).length ≤ r.length :=
            List.Sublist.length_le (List.dropWhile_sublist _)
          simp only [List.length_cons] at h2 h6 ⊢
          omega
      · exact absurd h (by simp)
    · exact absurd h (by simp)
  · simp

/-- All captures of `re.findall(r'time=([\d.]+) ms', s)`. -/
def findTimes (s : String) : List String :=
  (scanTimes s.data).map String.mk

/-- Decimal digits to a natural number. -/
def digitsToNat (l : List Char) : Nat :=
  l.foldl (fun n c => 10 * n + (c.toNat - 48)) 0

/-- Value of a digits-and-dots literal `intpart.fracpart` as a rational. -/
def ratOfDigits (cs : List Char) : ℚ :=
  let ip := cs.takeWhile (fun c => c ≠ '.')
  let fp := (cs.dropWhile (fun c => c ≠ '.')).drop 1
  (digitsToNat ip : ℚ) + (digitsToNat fp : ℚ) / (10 ^ fp.length : ℚ)

/-- Python `float(s)` on a string matched by `[\d.]+`: it succeeds iff the
string has at least one digit and at most one dot (e.g. `float('1.2.3')` and
`float('.')` raise `ValueError`). -/
def pyFloat (s : String) : Option ℚ :=
  let cs := s.data
  if cs.any Char.isDigit ∧ cs.count '.' ≤ 1 ∧ cs.all isDigitOrDot then
    some (ratOfDigits cs)
  else none

/-- Outcome of the `ping` subprocess call: either it returned (with whatever
it wrote to stdout — `check` is not set, so a non-zero exit does not raise),
or the call itself raised (e.g. the binary is missing). -/
inductive CmdResult where
  | ok (stdout : String)
  | exn
deriving DecidableEq, Repr

/-- `test_latency`: extract all `time=… ms` samples from the ping output and
return their arithmetic mean; `None` when no sample parses or anything inside
the `try` raises. -/
def test_latency (ping : CmdResult) : Option ℚ :=
  match ping with
  | .exn => none
  | .ok out =>
    let times := findTimes out
    if times.isEmpty then none
    else
      match times.mapM pyFloat with
      | some ls => some (ls.sum / (ls.length : ℚ))
      | none => none

/-- `test_speed`: `get_best_server`, then download, then upload, each a call
that may raise; any exception anywhere in the `try` falls through to
`return None, None`.  Successful raw bytes/sec figures are divided by
1 000 000.  `serverOk = false` models `get_best_server` raising; `none` for
`dlBytes`/`ulBytes` models `st.download()`/`st.upload()` raising. -/
def test_speed (serverOk : Bool) (dlBytes ulBytes : Option ℚ) : Option ℚ × Option ℚ :=
  if serverOk then
    match dlBytes with
    | some d =>
      match ulBytes with
      | some u => (some (d / 1000000), some (u / 1000000))
      | none => (none, none)
    | none => (none, none)
  else (none, none)

/-- Everything printed or executed externally during a run, in order:
subprocess invocations (`upCmd`, `downCmd`, `finalDownCmd`) and the script's
own messages. -/
inductive Event where
  | upCmd (cfg : String)
  | downCmd (cfg : String)
  | finalDownCmd (cfg : String)
  | msgActivated (cfg : String)
  | msgActivationFailed (cfg : String)
  | msgDeactivated (cfg : String)
  | msgDeactivationFailed
  | msgWarn (code : String)
  | msgNoValid
  | msgInterrupted
  | msgGraceful (cfg : String)
deriving DecidableEq, Repr

/-- `subprocess.run(..., check=check)` on a command whose exit status is
`exitStatus`: it raises `CalledProcessError` iff `check` is set and the
status is non-zero. -/
def subprocessRun (check : Bool) (exitStatus : Int) : Except Unit Unit :=
  if check ∧ exitStatus ≠ 0 then .error () else .ok ()

/-- `WireGuardManager.activate_wireguard`: run `wg-quick up` with
`check=True`; on `CalledProcessError` print a failure message and re-raise
(second component `true` = the exception propagates to the caller). -/
def activate_wireguard (cfg : String) (upStatus : Int) : List Event × Bool :=
  match subprocessRun true upStatus with
  | .ok _ => ([.upCmd cfg, .msgActivated cfg], false)
  | .error _ => ([.upCmd cfg, .msgActivationFailed cfg], true)

/-- `WireGuardManager.deactivate_wireguard`: run `wg-quick down` with
`check=False` — which never raises `CalledProcessError`, so the
`except CalledProcessError` branch (which would print the failure message)
is unreachable and the success message prints regardless of the exit
status. -/
def deactivate_wireguard (cfg : String) (downStatus : Int) : List Event × Bool :=
  match subprocessRun false downStatus with
  | .ok _ => ([.downCmd cfg, .msgDeactivated cfg], false)
  | .error _ => ([.downCmd cfg, .msgDeactivationFailed], false)

/-- The opaque external world seen while benchmarking one configuration:
exit statuses of `wg-quick up`/`down`, the ping outcome, and the three
speedtest steps. -/
structure ConfigBehavior where
  upStatus : Int
  downStatus : Int
  ping : CmdResult
  serverOk : Bool
  dlBytes : Option ℚ
  ulBytes : Option ℚ
deriving DecidableEq, Repr

/-- The per-configuration result dict built by `benchmark_config`. -/
structure BenchmarkRecord where
  config : String
  latency : Option ℚ
  download_speed : Option ℚ
  upload_speed : Option ℚ
deriving DecidableEq, Repr

/-- The dict `benchmark_config` returns when it completes. -/
def mkRecord (cfg : String) (b : ConfigBehavior) : BenchmarkRecord :=
  { config := cfg
    latency := test_latency b.ping
    download_speed := (test_speed b.serverOk b.dlBytes b.ulBytes).1
    upload_speed := (test_speed b.serverOk b.dlBytes b.ulBytes).2 }

/-- Exceptions that can escape `benchmark_config`. -/
inductive PyErr where
  | procError
  | keyboardInterrupt
deriving DecidableEq, Repr

/-- `benchmark_config cfg b interrupted`: the `with WireGuardManager(...)`
block.  `__enter__` calls `activate_wireguard`; if that raises, `__exit__`
is **not** invoked and the exception propagates.  If the body raises (here:
`interrupted` models a `KeyboardInterrupt` during the probes), `__exit__`
still runs `deactivate_wireguard` before the exception propagates.  On
normal completion `__exit__` runs and the result dict is returned. -/
def benchmark_config (cfg : String) (b : ConfigBehavior) (interrupted : Bool) :
    List Event × Except PyErr BenchmarkRecord :=
  let up := activate_wireguard cfg b.upStatus
  if up.2 then (up.1, .error .procError)
  else if interrupted then
    (up.1 ++ (deactivate_wireguard cfg b.downStatus).1, .error .keyboardInterrupt)
  else
    (up.1 ++ (deactivate_wireguard cfg b.downStatus).1, .ok (mkRecord cfg b))

/-- Python comparison of the two sort keys `(-download_speed, latency)` of
`results.sort(key=lambda x: (-x['download_speed'], x['latency']))`, as
`not (key₂ < key₁)` (the question a stable ascending sort by `<` asks when
deciding whether the earlier element may stay before the later one).
`none` models a `TypeError`: negating an absent download happens while the
key is built (handled separately in `rankedView`), and comparing an absent
latency with a present one raises inside the tuple comparison; two absent
latencies compare equal (`None == None`). -/
def recLe (r1 r2 : BenchmarkRecord) : Option Bool :=
  match r1.download_speed, r2.download_speed with
  | some d1, some d2 =>
    if d1 < d2 then some false
    else if d2 < d1 then some true
    else
      match r1.latency, r2.latency with
      | some x, some y => some (decide (x ≤ y))
      | none, none => some true
      | _, _ => none
  | _, _ => none

/-- Total extension of `recLe` handed to the sorting routine.  On every pair
on which `rankedView` actually sorts (its guards ensure all downloads are
present and all compared latencies comparable) it agrees with `recLe`; the
values chosen where `recLe` is `none` (absent field = last) only serve to
make the comparator globally total and transitive and are never observable
through `rankedView`. -/
def leB (r1 r2 : BenchmarkRecord) : Bool :=
  match r1.download_speed, r2.download_speed with
  | some d1, some d2 =>
    if d1 < d2 then false
    else if d2 < d1 then true
    else
      match r1.latency, r2.latency with
      | some x, some y => decide (x ≤ y)
      | none, none => true
      | some _, none => true
      | none, some _ => false
  | some _, none => true
  | none, some _ => false
  | none, none => true

/-- `results.sort(key=lambda x: (-x['download_speed'], x['latency']))`.
CPython first builds every key — raising `TypeError` on `-None` when any
record's download speed is absent — and then sorts stably by tuple `<`,
raising `TypeError` if it compares an absent latency with a present one
under equal downloads.  The embedding errors exactly when key construction
fails, and (conservatively, since the exact comparison schedule of timsort
is not modelled) when some pair of records is incomparable; otherwise it
returns the stable ascending sort. -/
def rankedView (rs : List BenchmarkRecord) : Except Unit (List BenchmarkRecord) :=
  if rs.all fun r => r.download_speed.isSome then
    if rs.all (fun r1 => rs.all fun r2 => (recLe r1 r2).isSome) then
      .ok (rs.mergeSort leB)
    else .error ()
  else .error ()

/-- The discovery loop of `main`: for each country code list the `.conf`
files starting with it, warn when there are none, and accumulate the joined
paths of the matches. -/
def discover (folder : String) (files : List String) : List String → List Event × List String
  | [] => ([], [])
  | code :: rest =>
    let matched := files.filter fun f => pyEndsWith f ".conf" && pyStartsWith f code
    let tail := discover folder files rest
    if matched.isEmpty then (Event.msgWarn code :: tail.1, tail.2)
    else (tail.1, matched.map (joinPath folder) ++ tail.2)

/-- Whether the modelled `KeyboardInterrupt` arrives during the probe block
of the configuration currently being benchmarked. -/
def interruptNow (int : Option Nat) : Bool :=
  match int with
  | some 0 => true
  | _ => false

/-- How the benchmarking `for` loop inside `main`'s `try` ended. -/
inductive LoopExit where
  | normal
  | interrupted
  | raised
deriving DecidableEq, Repr

/-- The `for config_path in valid_configs` loop of `main`: benchmark each
configuration in turn, appending each returned dict to `results`.
`int = some i` means a `KeyboardInterrupt` arrives during the probe block of
the `i`-th remaining configuration; a `CalledProcessError` from a failed
activation ends the loop by propagating (`.raised`). -/
def runLoop (cfgs : List String) (behav : String → ConfigBehavior) (int : Option Nat) :
    List Event × List BenchmarkRecord × LoopExit :=
  match cfgs with
  | [] => ([], [], .normal)
  | cfg :: rest =>
    let b := behav cfg
    let r := benchmark_config cfg b (interruptNow int)
    match r.2 with
    | .error .procError => (r.1, [], .raised)
    | .error .keyboardInterrupt => (r.1, [], .interrupted)
    | .ok rec =>
      let tail := runLoop rest behav (int.map fun n => n - 1)
      (r.1 ++ tail.1, rec :: tail.2.1, tail.2.2)

/-- Observable outcome of one `main(...)` call: the ordered event trace, the
final contents of the `results` list, what the final results table shows
(`none` when the run died before reaching it), and whether an exception
propagated out of `main`. -/
structure MainResult where
  events : List Event
  ledger : List BenchmarkRecord
  report : Option (List BenchmarkRecord)
  raised : Bool
deriving DecidableEq, Repr

/-- `main(config_folder, country_codes)`: discovery (with one warning per
unmatched code), early return on an empty configuration list, the benchmark
loop inside `try`, the in-place `results.sort` (still inside `try`, so a
`TypeError` from an absent download speed propagates), the
`except KeyboardInterrupt` handler, the `finally` block that always runs
`wg-quick down` on `valid_configs[-1]` (the last **discovered**
configuration), and the final table — which is only reached when nothing
is still propagating. -/
def mainRun (folder : String) (files codes : List String)
    (behav : String → ConfigBehavior) (int : Option Nat) : MainResult :=
  let d := discover folder files codes
  if h : d.2 = [] then
    { events := d.1 ++ [.msgNoValid], ledger := [], report := none, raised := false }
  else
    let last := d.2.getLast h
    let L := runLoop d.2 behav int
    let finEvs := [Event.finalDownCmd last, Event.msgGraceful last]
    match L.2.2 with
    | .raised =>
      { events := d.1 ++ L.1 ++ finEvs, ledger := L.2.1, report := none, raised := true }
    | .interrupted =>
      { events := d.1 ++ L.1 ++ [Event.msgInterrupted] ++ finEvs, ledger := L.2.1,
        report := some L.2.1, raised := false }
    | .normal =>
      match rankedView L.2.1 with
      | .ok l =>
        { events := d.1 ++ L.1 ++ finEvs, ledger := l, report := some l, raised := false }
      | .error _ =>
        { events := d.1 ++ L.1 ++ finEvs, ledger := L.2.1, report := none, raised := true }

/-- Number of tunnel-activation attempts (`wg-quick up` invocations) in a
trace. -/
def countUps (evs : List Event) : Nat :=
  evs.countP fun e => match e with | .upCmd _ => true | _ => false

/-- Number of tunnel-deactivation attempts (`wg-quick down` invocations,
scoped or from `main`'s `finally`) in a trace. -/
def countDowns (evs : List Event) : Nat :=
  evs.countP fun e =>
    match e with | .downCmd _ => true | .finalDownCmd _ => true | _ => false

/-- Equality of `Except` outcomes is decidable componentwise (used to
evaluate concrete runs of the embedded functions). -/
instance {ε α : Type} [DecidableEq ε] [DecidableEq α] : DecidableEq (Except ε α) := fun a b =>
  match a, b with
  | .error e1, .error e2 =>
    match decEq e1 e2 with
    | isTrue h => isTrue (by rw [h])
    | isFalse h => isFalse (by intro hh; cases hh; exact h rfl)
  | .ok x, .ok y =>
    match decEq x y with
    | isTrue h => isTrue (by rw [h])
    | isFalse h => isFalse (by intro hh; cases hh; exact h rfl)
  | .error _, .ok _ => isFalse (by intro hh; cases hh)
  | .ok _, .error _ => isFalse (by intro hh; cases hh)

/-- Example record `A: 50 Mbps download / 20 ms latency` from the spec. -/
def recA : BenchmarkRecord := ⟨"A", some 20, some 50, some 10⟩

/-- Example record `B: 100 Mbps download / 30 ms latency` from the spec. -/
def recB : BenchmarkRecord := ⟨"B", some 30, some 100, some 10⟩

/-- Example record `C: absent download / absent latency` from the spec. -/
def recC : BenchmarkRecord := ⟨"C", none, none, none⟩

/-- A successful activation makes `benchmark_config` run both probes, release
the tunnel and return the result dict. -/
theorem benchmark_config_ok (cfg : String) (b : ConfigBehavior) (hb : b.upStatus = 0) :
    benchmark_config cfg b false =
      ([Event.upCmd cfg, Event.msgActivated cfg, Event.downCmd cfg, Event.msgDeactivated cfg],
        .ok (mkRecord cfg b)) := by
  simp [benchmark_config, activate_wireguard, deactivate_wireguard, subprocessRun, hb]

/-- A failed activation makes `benchmark_config` raise without ever invoking
`wg-quick down`. -/
theorem benchmark_config_fail (cfg : String) (b : ConfigBehavior) (i : Bool)
    (hb : b.upStatus ≠ 0) :
    benchmark_config cfg b i =
      ([Event.upCmd cfg, Event.msgActivationFailed cfg], .error .procError) := by
  simp [benchmark_config, activate_wireguard, subprocessRun, hb]

/-- C1.  The claim says a matching release is attempted on every exit from the
handle's scope, *including* when activation itself fails.  False: when
`activate_wireguard` raises inside `__enter__`, Python never calls `__exit__`,
so the handle attempts no `wg-quick down` at all — the trace of a failed
activation contains the `up` attempt but no `down` attempt. -/
theorem scoped_release_counterexample :
    Event.upCmd "a.conf" ∈
      (benchmark_config "a.conf" ⟨1, 0, CmdResult.exn, false, none, none⟩ false).1 ∧
    Event.downCmd "a.conf" ∉
      (benchmark_config "a.conf" ⟨1, 0, CmdResult.exn, false, none, none⟩ false).1 := by
  decide

/-- C1 (amended).  Whenever activation succeeds, a matching deactivation is
attempted on every exit from the handle's scope — normal completion or an
exception (e.g. `KeyboardInterrupt`) raised by the probe block; when
activation fails, the handle's scope attempts no deactivation. -/
theorem scoped_release_amended (cfg : String) (b : ConfigBehavior) (i : Bool) :
    (b.upStatus = 0 → Event.downCmd cfg ∈ (benchmark_config cfg b i).1) ∧
    (b.upStatus ≠ 0 →
      (benchmark_config cfg b i).1 = [Event.upCmd cfg, Event.msgActivationFailed cfg]) := by
  constructor
  · intro hb
    cases i <;>
      simp [benchmark_config, activate_wireguard, deactivate_wireguard, subprocessRun, hb]
  · intro hb
    rw [benchmark_config_fail cfg b i hb]

/-- Witness for C1 (amended): a concrete interrupted probe block still
triggers the scoped deactivation. -/
theorem scoped_release_witness :
    Event.downCmd "a.conf" ∈
      (benchmark_config "a.conf" ⟨0, 0, CmdResult.exn, false, none, none⟩ true).1 :=
  (scoped_release_amended "a.conf" ⟨0, 0, CmdResult.exn, false, none, none⟩ true).1 (by decide)

/-- C8.  The claim says a failure of the external down command is swallowed
*and logged*.  Swallowed, yes — but not logged: `deactivate_wireguard` runs
`wg-quick down` with `check=False`, which never raises `CalledProcessError`,
so the `except` branch that would print the failure message is dead code and
a non-zero exit status (here `1`) produces only the normal success message. -/
theorem release_failure_not_logged :
    (deactivate_wireguard "a.conf" 1).1 =
      [Event.downCmd "a.conf", Event.msgDeactivated "a.conf"] ∧
    Event.msgDeactivationFailed ∉ (deactivate_wireguard "a.conf" 1).1 := by
  decide

/-- C8 (amended).  `release()` never raises to the caller: for every exit
status of the external down command — including the non-zero status of
deactivating an already-inactive resource — the failure is swallowed
silently; no failure-specific message is logged, the ordinary deactivation
message being printed regardless. -/
theorem release_never_raises (cfg : String) (status : Int) :
    (deactivate_wireguard cfg status).2 = false ∧
    (deactivate_wireguard cfg status).1 = [Event.downCmd cfg, Event.msgDeactivated cfg] := by
  simp [deactivate_wireguard, subprocessRun]

/-- C10.  The throughput probe's two results are all-or-nothing: either every
step succeeded and both download and upload are present (each the raw
bytes/sec divided by 1 000 000), or some step raised — even after the
download already measured a value — and the probe returns `(None, None)`
without raising to its caller. -/
theorem speed_pair_all_or_nothing (sOk : Bool) (dl ul : Option ℚ) :
    (test_speed sOk dl ul = (none, none) ∨
      ∃ d u, dl = some d ∧ ul = some u ∧ sOk = true ∧
        test_speed sOk dl ul = (some (d / 1000000), some (u / 1000000))) ∧
    (∀ d : ℚ, test_speed sOk (some d) none = (none, none)) := by
  constructor
  · cases sOk <;> cases dl <;> cases ul <;> simp [test_speed]
  · intro d; cases sOk <;> simp [test_speed]

/-- C6.  The latency probe returns the arithmetic mean of all round-trip-time
samples parsed from the ping output, and absence when the subprocess call
raises or when zero samples parse (the `mapM` premise reflects that every
matched `[\d.]+` capture must also survive `float(...)`). -/
theorem latency_mean_spec :
    test_latency CmdResult.exn = none ∧
    (∀ out : String, findTimes out = [] → test_latency (.ok out) = none) ∧
    (∀ (out : String) (ls : List ℚ),
      (findTimes out).mapM pyFloat = some ls → ls ≠ [] →
      test_latency (.ok out) = some (ls.sum / (ls.length : ℚ))) := by
  refine ⟨rfl, ?_, ?_⟩
  · intro out h
    simp [test_latency, h]
  · intro out ls hmap hne
    cases hts : findTimes out with
    | nil =>
      rw [hts] at hmap
      simp only [List.mapM_nil, Option.pure_def, Option.some.injEq] at hmap
      exact absurd hmap.symm hne
    | cons t ts =>
      simp only [test_latency, hts, List.isEmpty_cons, Bool.false_eq_true, if_false]
      rw [hts] at hmap
      rw [hmap]

unseal scanTimes in
/-- Witness for C6: ping output with the three samples `time=10.0 ms`,
`time=20.0 ms`, `time=30.0 ms` yields the mean `20.0`, and output with no
matches yields absence. -/
theorem latency_mean_witness :
    test_latency (.ok "a time=10.0 ms b time=20.0 ms c time=30.0 ms") = some 20 ∧
    test_latency (.ok "no round trip samples here") = none := by
  constructor
  · have hfind : findTimes "a time=10.0 ms b time=20.0 ms c time=30.0 ms" =
        ["10.0", "20.0", "30.0"] := by decide
    have e10 : pyFloat "10.0" = some 10 := by
      simp only [pyFloat]
      rw [if_pos (by decide)]
      have h2 : ratOfDigits "10.0".data = (10 : ℚ) + (0 : ℚ) / (10 ^ 1 : ℚ) := by
        simp only [ratOfDigits]
        rw [show List.takeWhile (fun c => (decide ¬c = '.')) "10.0".data = ['1', '0'] from
              by decide,
            show (List.dropWhile (fun c => (decide ¬c = '.')) "10.0".data).drop 1 = ['0'] from
              by decide,
            show digitsToNat ['1', '0'] = 10 from by decide,
            show digitsToNat ['0'] = 0 from by decide]
        norm_num
      rw [h2]; norm_num
    have e20 : pyFloat "20.0" = some 20 := by
      simp only [pyFloat]
      rw [if_pos (by decide)]
      have h2 : ratOfDigits "20.0".data = (20 : ℚ) + (0 : ℚ) / (10 ^ 1 : ℚ) := by
        simp only [ratOfDigits]
        rw [show List.takeWhile (fun c => (decide ¬c = '.')) "20.0".data = ['2', '0'] from
              by decide,
            show (List.dropWhile (fun c => (decide ¬c = '.')) "20.0".data).drop 1 = ['0'] from
              by decide,
            show digitsToNat ['2', '0'] = 20 from by decide,
            show digitsToNat ['0'] = 0 from by decide]
        norm_num
      rw [h2]; norm_num
    have e30 : pyFloat "30.0" = some 30 := by
      simp only [pyFloat]
      rw [if_pos (by decide)]
      have h2 : ratOfDigits "30.0".data = (30 : ℚ) + (0 : ℚ) / (10 ^ 1 : ℚ) := by
        simp only [ratOfDigits]
        rw [show List.takeWhile (fun c => (decide ¬c = '.')) "30.0".data = ['3', '0'] from
              by decide,
            show (List.dropWhile (fun c => (decide ¬c = '.')) "30.0".data).drop 1 = ['0'] from
              by decide,
            show digitsToNat ['3', '0'] = 30 from by decide,
            show digitsToNat ['0'] = 0 from by decide]
        norm_num
      rw [h2]; norm_num
    have hmap : (findTimes "a time=10.0 ms b time=20.0 ms c time=30.0 ms").mapM pyFloat =
        some [10, 20, 30] := by
      rw [hfind, List.mapM_cons, List.mapM_cons, List.mapM_cons, List.mapM_nil, e10, e20, e30]
      rfl
    have h := latency_mean_spec.2.2 "a time=10.0 ms b time=20.0 ms c time=30.0 ms"
      [10, 20, 30] hmap (by decide)
    rw [h]
    norm_num [List.sum_cons, List.sum_nil]
  · exact latency_mean_spec.2.1 "no round trip samples here" (by decide)

set_option maxHeartbeats 1000000 in
/-- The total comparator handed to the sorting routine is transitive. -/
theorem leB_trans (a b c : BenchmarkRecord) (h1 : leB a b = true) (h2 : leB b c = true) :
    leB a c = true := by
  obtain ⟨ac, al, ad, au⟩ := a
  obtain ⟨bc, bl, bd, bu⟩ := b
  obtain ⟨cc, cl, cd, cu⟩ := c
  rcases ad with _ | d1 <;> rcases bd with _ | d2 <;> rcases cd with _ | d3 <;>
    rcases al with _ | x <;> rcases bl with _ | y <;> rcases cl with _ | z <;>
    simp_all only [leB] <;> split_ifs at * <;> simp_all <;> linarith

set_option maxHeartbeats 1000000 in
/-- The total comparator handed to the sorting routine is total. -/
theorem leB_total (a b : BenchmarkRecord) : (leB a b || leB b a) = true := by
  obtain ⟨ac, al, ad, au⟩ := a
  obtain ⟨bc, bl, bd, bu⟩ := b
  rcases ad with _ | d1 <;> rcases bd with _ | d2 <;>
    rcases al with _ | x <;> rcases bl with _ | y <;>
    simp_all only [leB] <;> (try split_ifs) <;> simp_all
  all_goals first | linarith | exact le_total _ _

set_option maxHeartbeats 1000000 in
/-- Wherever Python's key comparison is defined (no `TypeError`), the total
comparator `leB` agrees with it, so the totalization is unobservable on the
lists `rankedView` actually sorts. -/
theorem leB_agrees_recLe (a b : BenchmarkRecord) (v : Bool) (h : recLe a b = some v) :
    leB a b = v := by
  obtain ⟨ac, al, ad, au⟩ := a
  obtain ⟨bc, bl, bd, bu⟩ := b
  rcases ad with _ | d1 <;> rcases bd with _ | d2 <;>
    rcases al with _ | x <;> rcases bl with _ | y <;>
    simp_all only [recLe, leB] <;> (try split_ifs) <;> simp_all

/-- C4.  The claim says records with an absent download speed sort after all
others, ranking `[A: 50/20, B: 100/30, C: absent/absent]` as `[B, A, C]`.
False: the sort key `-x['download_speed']` raises `TypeError` on `None`, so
ranking the example list fails instead of producing any ordering. -/
theorem ranking_absent_counterexample :
    rankedView [recA, recB, recC] = .error () ∧
    rankedView [recA, recB, recC] ≠ .ok [recB, recA, recC] := by
  decide

/-- C4 (amended).  On ledgers in which every record has a present download
speed and a present latency, the ranked view succeeds and orders records by
descending download speed primarily and ascending latency secondarily
(`leB`), as a permutation of the ledger; a record with an absent download
speed instead makes the ranking raise `TypeError` (counterexample above). -/
theorem ranking_amended (rs : List BenchmarkRecord)
    (h : ∀ r ∈ rs, r.download_speed.isSome ∧ r.latency.isSome) :
    ∃ l, rankedView rs = .ok l ∧ l.Perm rs ∧
      List.Pairwise (fun a b => leB a b = true) l := by
  have hg1 : (rs.all fun r => r.download_speed.isSome) = true := by
    rw [List.all_eq_true]
    intro r hr
    exact (h r hr).1
  have hg2 : (rs.all fun r1 => rs.all fun r2 => (recLe r1 r2).isSome) = true := by
    rw [List.all_eq_true]
    intro r1 hr1
    rw [List.all_eq_true]
    intro r2 hr2
    obtain ⟨hd1, hl1⟩ := h r1 hr1
    obtain ⟨hd2, hl2⟩ := h r2 hr2
    obtain ⟨d1, e1⟩ := Option.isSome_iff_exists.mp hd1
    obtain ⟨d2, e2⟩ := Option.isSome_iff_exists.mp hd2
    obtain ⟨x, f1⟩ := Option.isSome_iff_exists.mp hl1
    obtain ⟨y, f2⟩ := Option.isSome_iff_exists.mp hl2
    simp only [recLe, e1, e2, f1, f2]
    split_ifs <;> simp
  simp only [rankedView, hg1, hg2, if_true]
  exact ⟨rs.mergeSort leB, rfl, List.mergeSort_perm rs leB,
    List.sorted_mergeSort leB_trans leB_total rs⟩

/-- Witness for C4 (amended): the all-present part of the spec's example. -/
theorem ranking_amended_witness :
    ∃ l, rankedView [recA, recB] = .ok l ∧ l.Perm [recA, recB] ∧
      List.Pairwise (fun a b => leB a b = true) l :=
  ranking_amended [recA, recB] (by decide)

unseal List.merge List.mergeSort in
/-- C7.  The claim says producing the ranked view leaves the ledger's stored
sequence unchanged.  False: `results.sort(...)` sorts in place, so after
ranking the ledger `[A, B]` (insertion order) holds `[B, A]`. -/
theorem ledger_mutation_counterexample :
    rankedView [recA, recB] = .ok [recB, recA] ∧
    ([recB, recA] : List BenchmarkRecord) ≠ [recA, recB] := by
  decide

/-- C7 (amended).  Ranking is destructive: `results.sort` reorders the ledger
in place, so afterwards the ledger holds the ranked order — the same records
as a permutation — rather than the insertion order. -/
theorem ranking_permutes (rs l : List BenchmarkRecord) (h : rankedView rs = .ok l) :
    l.Perm rs := by
  unfold rankedView at h
  split_ifs at h
  · simp only [Except.ok.injEq] at h
    subst h
    exact List.mergeSort_perm rs leB

unseal List.merge List.mergeSort in
/-- Witness for C7 (amended): the reordered ledger of the counterexample is a
permutation of the original. -/
theorem ranking_permutes_witness : ([recB, recA] : List BenchmarkRecord).Perm [recA, recB] :=
  ranking_permutes [recA, recB] [recB, recA] (by decide)

/-- When no file matches any requested code, discovery warns once per code,
in order, and finds nothing. -/
theorem discover_all_missed (folder : String) (files codes : List String)
    (h : ∀ code ∈ codes, ∀ f ∈ files,
      ¬(pyEndsWith f ".conf" = true ∧ pyStartsWith f code = true)) :
    discover folder files codes = (codes.map Event.msgWarn, []) := by
  induction codes with
  | nil => rfl
  | cons c cs ih =>
    have hc : (files.filter fun f => pyEndsWith f ".conf" && pyStartsWith f c) = [] := by
      rw [List.filter_eq_nil_iff]
      intro f hf
      have hcf := h c (by simp) f hf
      simp only [Bool.and_eq_true]
      exact hcf
    have ihh := ih fun code hc2 f hf => h code (by simp [hc2]) f hf
    simp only [discover, hc, ihh, List.isEmpty_nil, if_true, List.map_cons]

/-- C9.  When configuration discovery matches nothing for any requested
filter, `main` emits one warning per filter and the terminal
`no valid configurations` message, produces an empty ledger, never raises,
and returns before any `wg-quick` invocation: the run's whole event trace
holds no activation or deactivation attempt. -/
theorem empty_discovery_spec (folder : String) (files codes : List String)
    (behav : String → ConfigBehavior) (int : Option Nat)
    (h : ∀ code ∈ codes, ∀ f ∈ files,
      ¬(pyEndsWith f ".conf" = true ∧ pyStartsWith f code = true)) :
    mainRun folder files codes behav int =
      { events := codes.map Event.msgWarn ++ [Event.msgNoValid], ledger := [],
        report := none, raised := false } ∧
    countUps (mainRun folder files codes behav int).events = 0 ∧
    countDowns (mainRun folder files codes behav int).events = 0 := by
  have hd := discover_all_missed folder files codes h
  have hmain : mainRun folder files codes behav int =
      { events := codes.map Event.msgWarn ++ [Event.msgNoValid], ledger := [],
        report := none, raised := false } := by
    unfold mainRun
    rw [hd]
    rfl
  refine ⟨hmain, ?_, ?_⟩ <;> rw [hmain] <;>
    simp [countUps, countDowns, List.countP_append, List.countP_map]

/-- Witness for C9: two concrete filters matching none of the files. -/
theorem empty_discovery_witness :
    mainRun "cfgs" ["readme.txt", "us1.ovpn"] ["us", "ch"]
        (fun _ => ⟨0, 0, CmdResult.exn, false, none, none⟩) none =
      { events := [Event.msgWarn "us", Event.msgWarn "ch", Event.msgNoValid], ledger := [],
        report := none, raised := false } ∧
    countUps (mainRun "cfgs" ["readme.txt", "us1.ovpn"] ["us", "ch"]
        (fun _ => ⟨0, 0, CmdResult.exn, false, none, none⟩) none).events = 0 ∧
    countDowns (mainRun "cfgs" ["readme.txt", "us1.ovpn"] ["us", "ch"]
        (fun _ => ⟨0, 0, CmdResult.exn, false, none, none⟩) none).events = 0 :=
  empty_discovery_spec "cfgs" ["readme.txt", "us1.ovpn"] ["us", "ch"]
    (fun _ => ⟨0, 0, CmdResult.exn, false, none, none⟩) none (by decide)

/-- Running the loop over a block of configurations that all activate
successfully (with no interruption) benchmarks each in order and proceeds to
the remainder. -/
theorem runLoop_ok_prefix (behav : String → ConfigBehavior) (pre rest : List String)
    (h : ∀ p ∈ pre, (behav p).upStatus = 0) :
    runLoop (pre ++ rest) behav none =
      ((pre.map fun p => [Event.upCmd p, Event.msgActivated p, Event.downCmd p,
          Event.msgDeactivated p]).flatten ++ (runLoop rest behav none).1,
        pre.map (fun p => mkRecord p (behav p)) ++ (runLoop rest behav none).2.1,
        (runLoop rest behav none).2.2) := by
  induction pre with
  | nil => simp
  | cons p ps ih =>
    have hp : (behav p).upStatus = 0 := h p (by simp)
    have hbc := benchmark_config_ok p (behav p) hp
    have ihh := ih fun q hq => h q (by simp [hq])
    simp only [List.cons_append, runLoop, interruptNow, hbc, Option.map_none', List.map_cons,
      List.flatten_cons, List.append_assoc, List.cons_append, List.append_eq]
    simp only [ihh]

/-- For a non-empty list, `getLastD` coincides with `getLast`. -/
theorem getLastD_eq_getLast (l : List String) (h : l ≠ []) (d : String) :
    l.getLastD d = l.getLast h := by
  cases l with
  | nil => exact absurd rfl h
  | cons a as => rw [List.getLastD_cons, List.getLast_eq_getLastD]

/-- C2.  The claim says an activation failure is fatal to that configuration
only and the campaign continues with the next one.  False: the
`CalledProcessError` re-raised by `activate_wireguard` is not caught by
`main` (whose handler only catches `KeyboardInterrupt`), so when the first
of two discovered configurations fails to activate, the second is never
attempted, no final report is produced, and the exception escapes `main`. -/
theorem activation_failure_counterexample :
    Event.upCmd "cfgs/ab.conf" ∉
      (mainRun "cfgs" ["aa.conf", "ab.conf"] ["a"]
        (fun c => if c = "cfgs/aa.conf" then ⟨1, 0, CmdResult.exn, false, none, none⟩
          else ⟨0, 0, CmdResult.exn, false, none, none⟩) none).events ∧
    (mainRun "cfgs" ["aa.conf", "ab.conf"] ["a"]
        (fun c => if c = "cfgs/aa.conf" then ⟨1, 0, CmdResult.exn, false, none, none⟩
          else ⟨0, 0, CmdResult.exn, false, none, none⟩) none).ledger = [] ∧
    (mainRun "cfgs" ["aa.conf", "ab.conf"] ["a"]
        (fun c => if c = "cfgs/aa.conf" then ⟨1, 0, CmdResult.exn, false, none, none⟩
          else ⟨0, 0, CmdResult.exn, false, none, none⟩) none).report = none ∧
    (mainRun "cfgs" ["aa.conf", "ab.conf"] ["a"]
        (fun c => if c = "cfgs/aa.conf" then ⟨1, 0, CmdResult.exn, false, none, none⟩
          else ⟨0, 0, CmdResult.exn, false, none, none⟩) none).raised = true := by
  decide

/-- C2 (amended).  When a configuration's activation fails, its probes are
skipped and no record is produced for it — but the campaign aborts rather
than continuing: the error propagates out of `main`, every configuration
after the failing one is never attempted (the trace below contains no event
of theirs), no final report is produced, and only the `finally` block's
down of the last *discovered* configuration still runs. -/
theorem activation_failure_aborts (folder : String) (files codes : List String)
    (behav : String → ConfigBehavior) (w : List Event) (pre post : List String) (c : String)
    (hd : discover folder files codes = (w, pre ++ c :: post))
    (hpre : ∀ p ∈ pre, (behav p).upStatus = 0)
    (hc : (behav c).upStatus ≠ 0) :
    (mainRun folder files codes behav none).raised = true ∧
    (mainRun folder files codes behav none).report = none ∧
    (mainRun folder files codes behav none).ledger =
      pre.map (fun p => mkRecord p (behav p)) ∧
    (mainRun folder files codes behav none).events =
      w ++ (pre.map fun p => [Event.upCmd p, Event.msgActivated p, Event.downCmd p,
          Event.msgDeactivated p]).flatten ++
        [Event.upCmd c, Event.msgActivationFailed c] ++
        [Event.finalDownCmd ((pre ++ c :: post).getLastD ""),
          Event.msgGraceful ((pre ++ c :: post).getLastD "")] := by
  have hfail : runLoop (c :: post) behav none =
      ([Event.upCmd c, Event.msgActivationFailed c], [], .raised) := by
    simp only [runLoop, interruptNow, benchmark_config_fail c (behav c) false hc]
  have hloop := runLoop_ok_prefix behav pre (c :: post) hpre
  rw [hfail] at hloop
  have hne : pre ++ c :: post ≠ [] := by simp
  unfold mainRun
  rw [hd]
  simp only [dif_neg hne, hloop, getLastD_eq_getLast (pre ++ c :: post) hne ""]
  refine ⟨trivial, trivial, by simp, by simp⟩

/-- Witness for C2 (amended): a two-configuration discovery whose first
configuration fails to activate. -/
theorem activation_failure_aborts_witness :
    (mainRun "cfgs" ["aa.conf", "ab.conf"] ["a"]
        (fun c => if c = "cfgs/aa.conf" then ⟨1, 0, CmdResult.exn, false, none, none⟩
          else ⟨0, 0, CmdResult.exn, false, none, none⟩) none).raised = true ∧
    (mainRun "cfgs" ["aa.conf", "ab.conf"] ["a"]
        (fun c => if c = "cfgs/aa.conf" then ⟨1, 0, CmdResult.exn, false, none, none⟩
          else ⟨0, 0, CmdResult.exn, false, none, none⟩) none).report = none ∧
    (mainRun "cfgs" ["aa.conf", "ab.conf"] ["a"]
        (fun c => if c = "cfgs/aa.conf" then ⟨1, 0, CmdResult.exn, false, none, none⟩
          else ⟨0, 0, CmdResult.exn, false, none, none⟩) none).ledger =
      ([] : List String).map (fun p => mkRecord p ((fun c =>
        if c = "cfgs/aa.conf" then (⟨1, 0, CmdResult.exn, false, none, none⟩ : ConfigBehavior)
          else ⟨0, 0, CmdResult.exn, false, none, none⟩) p)) ∧
    (mainRun "cfgs" ["aa.conf", "ab.conf"] ["a"]
        (fun c => if c = "cfgs/aa.conf" then ⟨1, 0, CmdResult.exn, false, none, none⟩
          else ⟨0, 0, CmdResult.exn, false, none, none⟩) none).events =
      [] ++ (([] : List String).map fun p => [Event.upCmd p, Event.msgActivated p,
          Event.downCmd p, Event.msgDeactivated p]).flatten ++
        [Event.upCmd "cfgs/aa.conf", Event.msgActivationFailed "cfgs/aa.conf"] ++
        [Event.finalDownCmd ((([] : List String) ++ "cfgs/aa.conf" :: ["cfgs/ab.conf"]).getLastD ""),
          Event.msgGraceful ((([] : List String) ++ "cfgs/aa.conf" :: ["cfgs/ab.conf"]).getLastD "")] :=
  activation_failure_aborts "cfgs" ["aa.conf", "ab.conf"] ["a"]
    (fun c => if c = "cfgs/aa.conf" then ⟨1, 0, CmdResult.exn, false, none, none⟩
      else ⟨0, 0, CmdResult.exn, false, none, none⟩)
    [] [] ["cfgs/ab.conf"] "cfgs/aa.conf" (by decide) (by decide) (by decide)

/-- Discovery prints only per-code warnings; it never touches a tunnel. -/
theorem discover_events_warns (folder : String) (files codes : List String) :
    ∀ e ∈ (discover folder files codes).1, ∃ code, e = Event.msgWarn code := by
  induction codes with
  | nil => intro e he; exact absurd he (by simp [discover])
  | cons c cs ih =>
    intro e he
    simp only [discover] at he
    split_ifs at he
    · rcases List.mem_cons.mp he with h1 | h1
      · exact ⟨c, h1⟩
      · exact ih e h1
    · exact ih e he

/-- Each successfully benchmarked configuration contributes exactly one
activation attempt to the trace. -/
theorem countUps_block (cfgs : List String) :
    countUps ((cfgs.map fun p => [Event.upCmd p, Event.msgActivated p, Event.downCmd p,
      Event.msgDeactivated p]).flatten) = cfgs.length := by
  induction cfgs with
  | nil => rfl
  | cons c cs ih =>
    simp only [List.map_cons, List.flatten_cons, countUps, List.countP_append,
      List.countP_cons] at ih ⊢
    simp [ih]
    omega

/-- Each successfully benchmarked configuration contributes exactly one
deactivation attempt to the trace. -/
theorem countDowns_block (cfgs : List String) :
    countDowns ((cfgs.map fun p => [Event.upCmd p, Event.msgActivated p, Event.downCmd p,
      Event.msgDeactivated p]).flatten) = cfgs.length := by
  induction cfgs with
  | nil => rfl
  | cons c cs ih =>
    simp only [List.map_cons, List.flatten_cons, countDowns, List.countP_append,
      List.countP_cons] at ih ⊢
    simp [ih]
    omega

/-- C5.  The claim says activation attempts equal deactivation attempts.
False already for a fully successful single-configuration run: the scoped
`__exit__` issues one `wg-quick down`, and `main`'s `finally` block then
unconditionally issues a second one for the last discovered configuration —
one up, two downs. -/
theorem updown_count_counterexample :
    countUps (mainRun "cfgs" ["aa.conf"] ["aa"]
      (fun _ => ⟨0, 0, CmdResult.exn, false, none, none⟩) none).events = 1 ∧
    countDowns (mainRun "cfgs" ["aa.conf"] ["aa"]
      (fun _ => ⟨0, 0, CmdResult.exn, false, none, none⟩) none).events = 2 ∧
    countUps (mainRun "cfgs" ["aa.conf"] ["aa"]
        (fun _ => ⟨0, 0, CmdResult.exn, false, none, none⟩) none).events ≠
      countDowns (mainRun "cfgs" ["aa.conf"] ["aa"]
        (fun _ => ⟨0, 0, CmdResult.exn, false, none, none⟩) none).events := by
  decide

/-- C5 (amended).  In an uninterrupted campaign in which every activation
succeeds, deactivation attempts exceed activation attempts by exactly one:
each configuration gets its scoped down, and `main`'s `finally` block adds
one more down of the last discovered configuration.  Every configuration
that reached Activating is deactivated at least once. -/
theorem updown_symmetry_amended (folder : String) (files codes : List String)
    (behav : String → ConfigBehavior) (w : List Event) (cfgs : List String)
    (hd : discover folder files codes = (w, cfgs))
    (hne : cfgs ≠ [])
    (hall : ∀ c ∈ cfgs, (behav c).upStatus = 0) :
    countUps (mainRun folder files codes behav none).events = cfgs.length ∧
    countDowns (mainRun folder files codes behav none).events = cfgs.length + 1 ∧
    ∀ c ∈ cfgs, Event.downCmd c ∈ (mainRun folder files codes behav none).events := by
  have hwarn : ∀ e ∈ w, ∃ code, e = Event.msgWarn code := by
    intro e he
    have hh := discover_events_warns folder files codes e
    rw [hd] at hh
    exact hh he
  have hw : countUps w = 0 ∧ countDowns w = 0 := by
    constructor
    · unfold countUps
      rw [List.countP_eq_zero]
      intro e he
      obtain ⟨code, rfl⟩ := hwarn e he
      simp
    · unfold countDowns
      rw [List.countP_eq_zero]
      intro e he
      obtain ⟨code, rfl⟩ := hwarn e he
      simp
  have hloop := runLoop_ok_prefix behav cfgs [] hall
  rw [List.append_nil] at hloop
  simp only [runLoop, List.append_nil] at hloop
  have hevents : (mainRun folder files codes behav none).events =
      w ++ (cfgs.map fun p => [Event.upCmd p, Event.msgActivated p, Event.downCmd p,
        Event.msgDeactivated p]).flatten ++
        [Event.finalDownCmd (cfgs.getLastD ""), Event.msgGraceful (cfgs.getLastD "")] := by
    unfold mainRun
    rw [hd]
    simp only [dif_neg hne, hloop, getLastD_eq_getLast cfgs hne ""]
    cases hrv : rankedView (cfgs.map fun p => mkRecord p (behav p)) <;> simp [hrv]
  refine ⟨?_, ?_, ?_⟩
  · rw [hevents]
    unfold countUps
    rw [List.countP_append, List.countP_append]
    have h1 := countUps_block cfgs
    have h0 := hw.1
    unfold countUps at h1 h0
    rw [h1, h0]
    simp
  · rw [hevents]
    unfold countDowns
    rw [List.countP_append, List.countP_append]
    have h1 := countDowns_block cfgs
    have h0 := hw.2
    unfold countDowns at h1 h0
    rw [h1, h0]
    simp
  · intro c hc
    rw [hevents]
    refine List.mem_append_left _ (List.mem_append_right _ ?_)
    rw [List.mem_flatten]
    exact ⟨[Event.upCmd c, Event.msgActivated c, Event.downCmd c, Event.msgDeactivated c],
      List.mem_map_of_mem _ hc, by simp⟩

/-- Witness for C5 (amended): an uninterrupted two-configuration campaign in
which both activations succeed. -/
theorem updown_symmetry_witness :
    countUps (mainRun "cfgs" ["aa.conf", "ab.conf"] ["a"]
      (fun _ => ⟨0, 0, CmdResult.exn, false, none, none⟩) none).events =
      (["cfgs/aa.conf", "cfgs/ab.conf"] : List String).length ∧
    countDowns (mainRun "cfgs" ["aa.conf", "ab.conf"] ["a"]
      (fun _ => ⟨0, 0, CmdResult.exn, false, none, none⟩) none).events =
      (["cfgs/aa.conf", "cfgs/ab.conf"] : List String).length + 1 ∧
    ∀ c ∈ (["cfgs/aa.conf", "cfgs/ab.conf"] : List String),
      Event.downCmd c ∈ (mainRun "cfgs" ["aa.conf", "ab.conf"] ["a"]
        (fun _ => ⟨0, 0, CmdResult.exn, false, none, none⟩) none).events :=
  updown_symmetry_amended "cfgs" ["aa.conf", "ab.conf"] ["a"]
    (fun _ => ⟨0, 0, CmdResult.exn, false, none, none⟩) []
    ["cfgs/aa.conf", "cfgs/ab.conf"] (by decide) (by decide) (by decide)

/-- C3.  Three configurations are discovered; all activate fine; a
`KeyboardInterrupt` arrives during the probes of the second.  The completed
record of the first configuration still reaches the final report, and the
campaign-level cleanup runs `wg-quick down` exactly once — but on
`valid_configs[-1]`, the *last discovered* configuration (`gamma`, which was
never engaged), not on the most recently engaged one (`beta`): the code's
own comment says it takes "the last tested config", yet `valid_configs[-1]`
is indexing the discovery list, not the progress of the loop. -/
theorem interrupt_cleanup_target :
    mainRun "cfgs" ["alpha.conf", "beta.conf", "gamma.conf"] ["alpha", "beta", "gamma"]
        (fun _ => ⟨0, 0, CmdResult.exn, false, none, none⟩) (some 1) =
      { events := [Event.upCmd "cfgs/alpha.conf", Event.msgActivated "cfgs/alpha.conf",
          Event.downCmd "cfgs/alpha.conf", Event.msgDeactivated "cfgs/alpha.conf",
          Event.upCmd "cfgs/beta.conf", Event.msgActivated "cfgs/beta.conf",
          Event.downCmd "cfgs/beta.conf", Event.msgDeactivated "cfgs/beta.conf",
          Event.msgInterrupted,
          Event.finalDownCmd "cfgs/gamma.conf", Event.msgGraceful "cfgs/gamma.conf"],
        ledger := [⟨"cfgs/alpha.conf", none, none, none⟩],
        report := some [⟨"cfgs/alpha.conf", none, none, none⟩],
        raised := false } ∧
    "cfgs/gamma.conf" ≠ "cfgs/beta.conf" := by
  decide
